import Mathlib

/-!
Verification development for the diet/workout recommendation Flask service
(`app.py`).  The Python code is shallowly embedded: Python floats are
modelled as rationals (`ℚ`), Python exceptions as explicit outcome
constructors, the HTTP handlers as pure functions over their inputs plus an
explicit parameter standing for the external LLM provider call, and the
four `re.findall` section extractions as executable scanning functions on
`List Char`.
-/

/-- Whitespace predicate used by Python `str.strip`, `str.split()` and the
regex class `\s` (ASCII part; exotic Unicode whitespace is outside the
modelled input range). -/
def pyIsSpace (c : Char) : Bool :=
  c = ' ' || c = '\t' || c = '\n' || c = '\r' || c = '\x0b' || c = '\x0c'

/-- Drop the maximal leading run of whitespace characters (one half of
Python `str.strip`, and the regex `\s*` when followed by a non-whitespace
literal). -/
def dropWs : List Char → List Char
  | [] => []
  | c :: cs => if pyIsSpace c then dropWs cs else c :: cs

/-- Python `str.strip()`: remove leading and trailing whitespace. -/
def pyStrip (l : List Char) : List Char :=
  (dropWs (dropWs l).reverse).reverse

/-- Python `str.strip()` on `String`s. -/
def pyStripStr (s : String) : String :=
  String.mk (pyStrip s.toList)

/-- Accumulate a maximal run of decimal digits: returns the value read so
far, how many digits were consumed, and the rest of the input. -/
def parseDigitsAux : List Char → ℕ → ℕ → ℕ × ℕ × List Char
  | [], acc, n => (acc, n, [])
  | c :: cs, acc, n =>
    if c.isDigit then parseDigitsAux cs (10 * acc + (c.toNat - 48)) (n + 1)
    else (acc, n, c :: cs)

/-- Read a maximal digit run from the front of the input. -/
def parseDigits (s : List Char) : ℕ × ℕ × List Char :=
  parseDigitsAux s 0 0

/-- Split an optional leading sign off the input; `true` means negative. -/
def parseSign (l : List Char) : Bool × List Char :=
  match l with
  | '+' :: cs => (false, cs)
  | '-' :: cs => (true, cs)
  | cs => (false, cs)

/-- Parse the exponent part that may follow the mantissa: either nothing,
or `e`/`E`, an optional sign and at least one digit, consuming the whole
remaining input.  Returns the exponent as an integer. -/
def parseExpPart : List Char → Option ℤ
  | [] => some 0
  | c :: cs =>
    if c = 'e' ∨ c = 'E' then
      match parseSign cs with
      | (neg, cs') =>
        match parseDigits cs' with
        | (v, n, rest) =>
          if n = 0 then none
          else if rest = [] then some (if neg then -(v : ℤ) else (v : ℤ)) else none
    else none

/-- Rational-free representation of a parsed Python float literal:
signed mantissa, number of fractional digits, decimal exponent. -/
def pyFloatRep (s : String) : Option (ℤ × ℕ × ℤ) :=
  let l := pyStrip s.toList
  match parseSign l with
  | (neg, l₁) =>
    match parseDigits l₁ with
    | (ip, ic, l₂) =>
      match l₂ with
      | '.' :: l₃ =>
        match parseDigits l₃ with
        | (fp, fc, l₄) =>
          if ic + fc = 0 then none
          else
            match parseExpPart l₄ with
            | some e =>
              some ((if neg then -((ip * 10 ^ fc + fp : ℕ) : ℤ) else ((ip * 10 ^ fc + fp : ℕ) : ℤ)), fc, e)
            | none => none
      | _ =>
        if ic = 0 then none
        else
          match parseExpPart l₂ with
          | some e => some ((if neg then -(ip : ℤ) else (ip : ℤ)), 0, e)
          | none => none

/-- Model of Python `float(s)` for finite decimal literals: optional
surrounding whitespace, optional sign, a digit string with an optional
decimal point (at least one digit overall), and an optional exponent.
`none` models `float` raising `ValueError`.  (`inf`/`nan` literals and
digit-group underscores are outside the modelled input range.) -/
def pyFloat (s : String) : Option ℚ :=
  (pyFloatRep s).map (fun r => (r.1 : ℚ) / (10 : ℚ) ^ r.2.1 * (10 : ℚ) ^ r.2.2)

/-- Python `round(x, 2)` on the modelled rational value: scale by 100,
round to the nearest integer with ties going to the even integer
(banker's rounding, as Python `round` does), scale back. -/
def pyRound2 (x : ℚ) : ℚ :=
  let y := x * 100
  let f := ⌊y⌋
  let r := y - f
  let n : ℤ :=
    if r < 1 / 2 then f
    else if 1 / 2 < r then f + 1
    else if f % 2 = 0 then f else f + 1
  (n : ℚ) / 100

/-- Outcome of `calculate_bmi`.  `invalid` is the Python `return None`
taken when `float()` raises `ValueError` (caught by the function's
`except ValueError`); `zeroDiv` is a `ZeroDivisionError` raised by the
division when `height ** 2 == 0` — that exception is NOT caught by
`except ValueError` and propagates to the caller. -/
inductive BmiOutcome where
  | ok (bmi : ℚ)
  | invalid
  | zeroDiv
deriving DecidableEq

/-- `calculate_bmi(weight, height)` from `app.py`: convert both strings
with `float`, return `round(weight / height ** 2, 2)`; a conversion
failure is caught and yields `None` (`invalid`), while a zero divisor
raises `ZeroDivisionError` (`zeroDiv`) to the caller. -/
def calculate_bmi (weight height : String) : BmiOutcome :=
  match pyFloat weight, pyFloat height with
  | some w, some h =>
    if h ^ 2 = 0 then BmiOutcome.zeroDiv else BmiOutcome.ok (pyRound2 (w / h ^ 2))
  | _, _ => BmiOutcome.invalid

/-- `bmi_category(bmi)` from `app.py`: the threshold ladder, including the
chained comparisons `18.5 <= bmi < 24.9` and `25 <= bmi < 29.9` exactly as
written (note the `[24.9, 25)` gap falls through to the final `else`). -/
def bmi_category (bmi : ℚ) : String :=
  if bmi < 18.5 then "Underweight 🥺 – Time to bulk up!"
  else if 18.5 ≤ bmi ∧ bmi < 24.9 then "Normal weight ✅ – Perfect balance!"
  else if 25 ≤ bmi ∧ bmi < 29.9 then "Overweight 😅 – Let\u0027s shed a few!"
  else "Obese 😭 – Let\u0027s fix this ASAP!"

/-- Head-is-not-whitespace test for a header literal. -/
def headNotSpace : List Char → Bool
  | [] => false
  | c :: _ => !(pyIsSpace c)

/-- Match a literal token at the head of the input, returning the rest on
success (the way a regex literal consumes characters). -/
def matchTok : List Char → List Char → Option (List Char)
  | [], s => some s
  | _ :: _, [] => none
  | t :: ts, c :: cs => if c = t then matchTok ts cs else none

/-- Scan left to right for the first position where the pattern
`tok \s* hdr \s*` matches, returning the input suffix just after the
second whitespace run (the capture start of the group `(.*?)`).  When the
token matches but the header does not, the scan advances one character,
exactly as the regex engine retries at the next start position.  `\s*`
may be taken maximally here because both `hdr` and the capture admit no
backtracking: `hdr` starts with a non-whitespace character, and the lazy
group accepts any continuation. -/
def findHeader (tok hdr : List Char) : List Char → Option (List Char)
  | [] => none
  | c :: cs =>
    match matchTok tok (c :: cs) with
    | some r₁ =>
      match matchTok hdr (dropWs r₁) with
      | some r₂ => some (dropWs r₂)
      | none => findHeader tok hdr cs
    | none => findHeader tok hdr cs

/-- Boolean prefix test on character lists. -/
def isPfx : List Char → List Char → Bool
  | [], _ => true
  | _ :: _, [] => false
  | t :: ts, c :: cs => c = t && isPfx ts cs

/-- The lazy capture `(.*?)(?=stop|\Z)`: take characters up to (not
including) the first position where `stop` begins, or to the end of the
input when `stop` never occurs. -/
def captureUntil (stop : List Char) : List Char → List Char
  | [] => []
  | c :: cs => if isPfx stop (c :: cs) then [] else c :: captureUntil stop cs

/-- First match of one of the four section regexes
`tok\s*hdr\s*(.*?)(?=\nstop|\Z)` (re.DOTALL): `none` when `re.findall`
returns the empty list, otherwise the capture group of the first match
(the only element the code uses).  `stop = none` models the last regex,
whose lookahead is `(?=\Z)` alone. -/
def reFirst (tok hdr : List Char) (stop : Option (List Char)) (s : List Char) :
    Option (List Char) :=
  match findHeader tok hdr s with
  | none => none
  | some rest =>
    match stop with
    | some st => some (captureUntil st rest)
    | none => some rest

/-- Python `str.split('\n')`: split at every newline, keeping empty
pieces; the empty string yields `[""]`. -/
def splitNl : List Char → List (List Char)
  | [] => [[]]
  | c :: cs =>
    if c = '\n' then [] :: splitNl cs
    else
      match splitNl cs with
      | [] => [[c]]
      | l :: ls => (c :: l) :: ls

/-- Rejoin lines with newline (`'\n'.join`), the inverse of `splitNl`. -/
def joinNl : List (List Char) → List Char
  | [] => []
  | [l] => l
  | l :: ls => l ++ '\n' :: joinNl ls

/-- Emoji anchor of the Daily Routine regex (U+1F496). -/
def emRoutine : List Char := ['💖']

/-- Emoji anchor of the Breakfast regex (U+1F373). -/
def emBreakfast : List Char := ['🍳']

/-- Emoji anchor of the Dinner regex (U+1F37D). -/
def emDinner : List Char := ['🍽']

/-- Emoji anchor of the Workout regex: the woman-lifting-weights ZWJ
sequence U+1F3CB U+FE0F U+200D U+2640 U+FE0F, five separate characters
matched literally in order. -/
def emWorkout : List Char := ['🏋', '\uFE0F', '\u200D', '\u2640', '\uFE0F']

/-- Header literal of the Daily Routine regex. -/
def hdrRoutine : List Char := "**Daily Routine:**".toList

/-- Header literal of the Breakfast regex. -/
def hdrBreakfast : List Char := "**Breakfast:**".toList

/-- Header literal of the Dinner regex. -/
def hdrDinner : List Char := "**Dinner:**".toList

/-- Header literal of the Workout Plan regex. -/
def hdrWorkout : List Char := "**Workout Plan:**".toList

/-- Lookahead stop of the Daily Routine regex: `\n` then the breakfast
emoji. -/
def stopBreakfast : List Char := '\n' :: emBreakfast

/-- Lookahead stop of the Breakfast regex: `\n` then the dinner emoji. -/
def stopDinner : List Char := '\n' :: emDinner

/-- Lookahead stop of the Dinner regex: `\n` then the workout emoji
sequence. -/
def stopWorkout : List Char := '\n' :: emWorkout

/-- Fallback placeholder for a missing Daily Routine section (bare
U+26A0 warning sign, as in the source). -/
def phRoutine : List Char := "⚠ No routine suggestions!".toList

/-- Fallback placeholder for a missing Breakfast section. -/
def phBreakfast : List Char := "⚠ No breakfast ideas!".toList

/-- Fallback placeholder for a missing Dinner section. -/
def phDinner : List Char := "⚠ No dinner ideas!".toList

/-- Fallback placeholder for a missing Workout section. -/
def phWorkout : List Char := "⚠ No workouts suggested!".toList

/-- Post-processing of one `re.findall` result:
`xs[0].strip().split('\n') if xs else [placeholder]`. -/
def sectionLines (cap : Option (List Char)) (ph : List Char) : List (List Char) :=
  match cap with
  | some c => splitNl (pyStrip c)
  | none => [ph]

/-- The four recommendation sections handed to the result template. -/
structure Sections where
  daily : List (List Char)
  breakfast : List (List Char)
  dinner : List (List Char)
  workout : List (List Char)
deriving DecidableEq

/-- The section-extraction block of the `/recommend` handler: the four
`re.findall` calls over the LLM completion plus the strip/split/fallback
post-processing of each first match. -/
def extractSections (response : List Char) : Sections :=
  { daily := sectionLines (reFirst emRoutine hdrRoutine (some stopBreakfast) response) phRoutine
    breakfast := sectionLines (reFirst emBreakfast hdrBreakfast (some stopDinner) response) phBreakfast
    dinner := sectionLines (reFirst emDinner hdrDinner (some stopWorkout) response) phDinner
    workout := sectionLines (reFirst emWorkout hdrWorkout none response) phWorkout }

/-- The eight form fields of a POST /recommend request; `none` models an
absent field (`request.form.get` then defaults it to `""`). -/
structure RecommendForm where
  age : Option String
  gender : Option String
  weight : Option String
  height : Option String
  disease : Option String
  veg : Option String
  allergics : Option String
  foodtype : Option String

/-- A rendered response page of the `/recommend` handler: either
`error.html` with a message, or `result.html` with the BMI data and the
four extracted section line lists. -/
inductive Page where
  | errorPage (message : String)
  | resultPage (bmi : ℚ) (bmi_status : String)
      (daily breakfast dinner workout : List (List Char))
deriving DecidableEq

/-- Result of one `/recommend` request: the page, the HTTP status, and a
trace flag recording whether `chain.run` (the LLM provider call) was
reached. -/
structure HandlerResult where
  page : Page
  status : ℕ
  llmInvoked : Bool
deriving DecidableEq

/-- `str(e)` for the `ZeroDivisionError` that `weight / height ** 2`
raises when `height` parses to zero; it is caught only by the handler's
outer `except Exception`. -/
def zdeMessage : String := "float division by zero"

/-- The `/recommend` handler.  `llm` stands for the external
`chain.run(input_data)` call: `Except.ok` is the completion text,
`Except.error e` an exception with text `str(e) = e` raised by the
provider and caught by the outer `except Exception` handler, which
renders `error.html` with `f"⚠️ Something went wrong: {str(e)}"` and
status 500. -/
def recommend (f : RecommendForm) (llm : Except String String) : HandlerResult :=
  if pyStripStr (f.age.getD "") = "" ∨ pyStripStr (f.gender.getD "") = "" ∨
      pyStripStr (f.weight.getD "") = "" ∨ pyStripStr (f.height.getD "") = "" ∨
      pyStripStr (f.disease.getD "") = "" ∨ pyStripStr (f.veg.getD "") = "" ∨
      pyStripStr (f.allergics.getD "") = "" ∨ pyStripStr (f.foodtype.getD "") = "" then
    ⟨Page.errorPage "⚠️ Missing required fields!", 400, false⟩
  else
    match calculate_bmi (pyStripStr (f.weight.getD ""))
        (pyStripStr (f.height.getD "")) with
    | BmiOutcome.invalid =>
      ⟨Page.errorPage "⚠️ Invalid weight or height format!", 400, false⟩
    | BmiOutcome.zeroDiv =>
      ⟨Page.errorPage ("⚠️ Something went wrong: " ++ zdeMessage), 500, false⟩
    | BmiOutcome.ok bmi =>
      match llm with
      | Except.error e =>
        ⟨Page.errorPage ("⚠️ Something went wrong: " ++ e), 500, true⟩
      | Except.ok response =>
        ⟨Page.resultPage bmi (bmi_category bmi)
          (extractSections response.toList).daily
          (extractSections response.toList).breakfast
          (extractSections response.toList).dinner
          (extractSections response.toList).workout, 200, true⟩

/-- Query parameters of a GET /download request: two scalar parameters
(`request.args.get`, `none` when absent) and four repeated list
parameters (`request.args.getlist`, which yields `[]` when absent). -/
structure DownloadArgs where
  bmi : Option String
  bmi_status : Option String
  daily_routine : List String
  breakfast_items : List String
  dinner_items : List String
  workout_plans : List String

/-- Response of the `/download` handler: the PDF attachment built from
the rendered template inputs, or `error.html` with a message. -/
inductive DownloadPage where
  | pdfFile (bmi bmi_status : String)
      (daily breakfast dinner workout : List String)
  | errorPage (message : String)
deriving DecidableEq

/-- The `/download` handler: read the query parameters with their
defaults, render the PDF template and return the file with status 200;
any exception inside the `try` block (modelled by `pdfFails`) is caught
and answered with `error.html` and status 500. -/
def download_pdf (a : DownloadArgs) (pdfFails : Bool) : DownloadPage × ℕ :=
  if pdfFails then
    (DownloadPage.errorPage "⚠️ Failed to generate PDF!", 500)
  else
    (DownloadPage.pdfFile (a.bmi.getD "") (a.bmi_status.getD "")
      a.daily_routine a.breakfast_items a.dinner_items a.workout_plans, 200)

/-- None of the four emoji anchor characters occurs in the block: such a
block can neither start a header match nor harbour a lookahead stop. -/
def cleanBlock (l : List Char) : Prop :=
  '💖' ∉ l ∧ '🍳' ∉ l ∧ '🍽' ∉ l ∧ '🏋' ∉ l

/-- Canonical routine header line "💖 **Daily Routine:**" plus newline. -/
def segRoutine : List Char := emRoutine ++ ' ' :: hdrRoutine ++ ['\n']

/-- Canonical breakfast header line "🍳 **Breakfast:**" plus newline. -/
def segBreakfast : List Char := emBreakfast ++ ' ' :: hdrBreakfast ++ ['\n']

/-- Canonical dinner header line "🍽 **Dinner:**" plus newline. -/
def segDinner : List Char := emDinner ++ ' ' :: hdrDinner ++ ['\n']

/-- Canonical workout header line plus newline. -/
def segWorkout : List Char := emWorkout ++ ' ' :: hdrWorkout ++ ['\n']

/-- A completion holding all four section headers in the expected order,
with leading text `intro` and section bodies `c1`–`c4`, each body
separated from the next header by a newline. -/
def mkCompletion4 (intro c1 c2 c3 c4 : List Char) : List Char :=
  intro ++ segRoutine ++ c1 ++ '\n' :: segBreakfast ++ c2 ++ '\n' :: segDinner ++
    c3 ++ '\n' :: segWorkout ++ c4

/-- A completion holding the routine, breakfast and dinner headers in the
expected order but no workout header. -/
def mkCompletion3 (intro c1 c2 c3 : List Char) : List Char :=
  intro ++ segRoutine ++ c1 ++ '\n' :: segBreakfast ++ c2 ++ '\n' :: segDinner ++ c3

/-- The form of the end-to-end example request: all eight fields present. -/
def cform : RecommendForm :=
  ⟨some "30", some "F", some "70", some "1.75", some "none",
    some "veg", some "none", some "indian"⟩

/-- Helper for evaluating `pyRound2` at concrete points: if `x * 100` lies
in `[n, n + 1/2)` the rounded value is `n / 100`. -/
theorem pyRound2_of_lt (x : ℚ) (n : ℤ) (h1 : (n : ℚ) ≤ x * 100)
    (h2 : x * 100 < (n : ℚ) + 1 / 2) : pyRound2 x = (n : ℚ) / 100 := by
  have hf : ⌊x * 100⌋ = n := by
    rw [Int.floor_eq_iff]
    exact ⟨h1, by linarith⟩
  simp only [pyRound2, hf]
  rw [if_pos]
  linarith

/-- Helper for evaluating `pyRound2` at concrete points: if `x * 100` lies
in `(n + 1/2, n + 1)` the rounded value is `(n + 1) / 100`. -/
theorem pyRound2_of_gt (x : ℚ) (n : ℤ) (h1 : (n : ℚ) + 1 / 2 < x * 100)
    (h2 : x * 100 < (n : ℚ) + 1) : pyRound2 x = ((n : ℚ) + 1) / 100 := by
  have hf : ⌊x * 100⌋ = n := by
    rw [Int.floor_eq_iff]
    exact ⟨by linarith, by linarith⟩
  simp only [pyRound2, hf]
  rw [if_neg, if_pos]
  · push_cast
    ring
  · linarith
  · linarith


/-- Unfolding lemma for `calculate_bmi` when both conversions succeed. -/
theorem calculate_bmi_of_some {ws hs : String} {w h : ℚ}
    (hw : pyFloat ws = some w) (hh : pyFloat hs = some h) :
    calculate_bmi ws hs =
      if h ^ 2 = 0 then BmiOutcome.zeroDiv
      else BmiOutcome.ok (pyRound2 (w / h ^ 2)) := by
  unfold calculate_bmi
  rw [hw, hh]

/-- Unfolding lemma for `calculate_bmi` when a conversion fails. -/
theorem calculate_bmi_of_none {ws hs : String}
    (h : pyFloat ws = none ∨ pyFloat hs = none) :
    calculate_bmi ws hs = BmiOutcome.invalid := by
  unfold calculate_bmi
  rcases h with h | h
  · rw [h]
  · rw [h]
    cases pyFloat ws <;> rfl

/-- Value of `pyFloat` from a computed representation. -/
theorem pyFloat_of_rep {s : String} {m : ℤ} {k : ℕ} {e : ℤ}
    (h : pyFloatRep s = some (m, k, e)) :
    pyFloat s = some ((m : ℚ) / (10 : ℚ) ^ k * (10 : ℚ) ^ e) := by
  rw [pyFloat, h]
  rfl

/-- Evaluation of `float("70")`. -/
theorem evalPyFloat70 : pyFloat "70" = some 70 := by
  rw [pyFloat_of_rep (show pyFloatRep "70" = some (70, 0, 0) from by decide)]
  norm_num

/-- Evaluation of `float("1.75")`. -/
theorem evalPyFloat175 : pyFloat "1.75" = some (7 / 4) := by
  rw [pyFloat_of_rep (show pyFloatRep "1.75" = some (175, 2, 0) from by decide)]
  norm_num

/-- Evaluation of `float("0")`. -/
theorem evalPyFloat0 : pyFloat "0" = some 0 := by
  rw [pyFloat_of_rep (show pyFloatRep "0" = some (0, 0, 0) from by decide)]
  norm_num

/-- Evaluation of `float("-2")`. -/
theorem evalPyFloatNeg2 : pyFloat "-2" = some (-2) := by
  rw [pyFloat_of_rep (show pyFloatRep "-2" = some (-2, 0, 0) from by decide)]
  norm_num

/-- Evaluation of `float("1")`. -/
theorem evalPyFloat1 : pyFloat "1" = some 1 := by
  rw [pyFloat_of_rep (show pyFloatRep "1" = some (1, 0, 0) from by decide)]
  norm_num

/-- Evaluation of `float("24.91")`. -/
theorem evalPyFloat2491 : pyFloat "24.91" = some (2491 / 100) := by
  rw [pyFloat_of_rep (show pyFloatRep "24.91" = some (2491, 2, 0) from by decide)]
  norm_num

/-- C1: for every weight string and height string that parse as floats
with positive parsed values, `calculate_bmi` returns
`round(weight / height ** 2, 2)`; in particular weight 70 and height
1.75 give BMI 22.86 with the Normal category. -/
theorem claim_c1_bmi_formula :
    (∀ (ws hs : String) (w h : ℚ), pyFloat ws = some w → pyFloat hs = some h →
      0 < w → 0 < h → calculate_bmi ws hs = BmiOutcome.ok (pyRound2 (w / h ^ 2))) ∧
    calculate_bmi "70" "1.75" = BmiOutcome.ok (2286 / 100) ∧
    bmi_category (2286 / 100) = "Normal weight ✅ – Perfect balance!" := by
  refine ⟨?_, ?_, ?_⟩
  · intro ws hs w h hw hh _ hhpos
    rw [calculate_bmi_of_some hw hh, if_neg (pow_ne_zero 2 (ne_of_gt hhpos))]
  · rw [calculate_bmi_of_some evalPyFloat70 evalPyFloat175, if_neg (by norm_num)]
    rw [show (70 : ℚ) / (7 / 4) ^ 2 = 1120 / 49 from by norm_num]
    rw [pyRound2_of_gt (1120 / 49) 2285 (by norm_num) (by norm_num)]
    norm_num
  · norm_num [bmi_category]

/-- Witness for C1 at weight "70", height "1.75". -/
theorem claim_c1_bmi_formula_witness :
    calculate_bmi "70" "1.75" = BmiOutcome.ok (pyRound2 (70 / (7 / 4) ^ 2)) :=
  claim_c1_bmi_formula.1 "70" "1.75" 70 (7 / 4) evalPyFloat70 evalPyFloat175
    (by norm_num) (by norm_num)

/-- C2 counterexample: with weight "70" and height "0" the division
raises `ZeroDivisionError`, which `except ValueError` does not catch, so
`calculate_bmi` does raise to its caller instead of returning the absent
marker; and with the negative height "-2" it computes a BMI value
(17.5) instead of treating the input as invalid. -/
theorem claim_c2_counterexample :
    calculate_bmi "70" "0" = BmiOutcome.zeroDiv ∧
    calculate_bmi "70" "-2" = BmiOutcome.ok (35 / 2) ∧
    BmiOutcome.zeroDiv ≠ BmiOutcome.invalid ∧
    BmiOutcome.ok (35 / 2) ≠ BmiOutcome.invalid := by
  refine ⟨?_, ?_, by simp, by simp⟩
  · rw [calculate_bmi_of_some evalPyFloat70 evalPyFloat0, if_pos (by norm_num)]
  · rw [calculate_bmi_of_some evalPyFloat70 evalPyFloatNeg2, if_neg (by norm_num)]
    rw [show (70 : ℚ) / (-2) ^ 2 = 35 / 2 from by norm_num]
    rw [pyRound2_of_lt (35 / 2) 1750 (by norm_num) (by norm_num)]
    norm_num

/-- C2 amended: a conversion failure of either string yields the absent
marker (`None`) without raising; but when both parse, a zero height
raises `ZeroDivisionError` to the caller, and any non-zero height —
negative included — computes `round(weight / height ** 2, 2)`. -/
theorem claim_c2_amended :
    ∀ (ws hs : String),
      ((pyFloat ws = none ∨ pyFloat hs = none) →
        calculate_bmi ws hs = BmiOutcome.invalid) ∧
      (∀ (w h : ℚ), pyFloat ws = some w → pyFloat hs = some h →
        ((h = 0 → calculate_bmi ws hs = BmiOutcome.zeroDiv) ∧
          (h ≠ 0 → calculate_bmi ws hs = BmiOutcome.ok (pyRound2 (w / h ^ 2))))) := by
  intro ws hs
  refine ⟨calculate_bmi_of_none, ?_⟩
  intro w h hw hh
  constructor
  · intro h0
    rw [calculate_bmi_of_some hw hh, if_pos (by rw [h0]; ring)]
  · intro h0
    rw [calculate_bmi_of_some hw hh, if_neg (pow_ne_zero 2 h0)]

/-- Witness for the amended C2: the zero-height and unparseable cases at
concrete inputs. -/
theorem claim_c2_amended_witness :
    calculate_bmi "70" "0" = BmiOutcome.zeroDiv ∧
    calculate_bmi "abc" "2" = BmiOutcome.invalid :=
  ⟨((claim_c2_amended "70" "0").2 70 0 evalPyFloat70 evalPyFloat0).1 rfl,
    (claim_c2_amended "abc" "2").1 (Or.inl (by decide))⟩

/-- C3: the category ladder at the six stated boundary values. -/
theorem claim_c3_category_boundaries :
    bmi_category 18.49 = "Underweight 🥺 – Time to bulk up!" ∧
    bmi_category 18.5 = "Normal weight ✅ – Perfect balance!" ∧
    bmi_category 24.89 = "Normal weight ✅ – Perfect balance!" ∧
    bmi_category 25.0 = "Overweight 😅 – Let\u0027s shed a few!" ∧
    bmi_category 29.89 = "Overweight 😅 – Let\u0027s shed a few!" ∧
    bmi_category 29.9 = "Obese 😭 – Let\u0027s fix this ASAP!" := by
  refine ⟨?_, ?_, ?_, ?_, ?_, ?_⟩ <;> norm_num [bmi_category]

/-- C4 counterexample: the rounded BMI 24.91 = round(24.91 / 1², 2) lies
in the gap `[24.9, 25)`, so the gap IS reachable from a successful
`calculate_bmi` output. -/
theorem claim_c4_gap_counterexample :
    calculate_bmi "24.91" "1" = BmiOutcome.ok (2491 / 100) ∧
    (24.9 : ℚ) ≤ 2491 / 100 ∧ (2491 / 100 : ℚ) < 25 := by
  refine ⟨?_, by norm_num, by norm_num⟩
  rw [calculate_bmi_of_some evalPyFloat2491 evalPyFloat1, if_neg (by norm_num)]
  rw [show (2491 / 100 : ℚ) / 1 ^ 2 = 2491 / 100 from by norm_num]
  rw [pyRound2_of_lt (2491 / 100) 2491 (by norm_num) (by norm_num)]
  norm_num

/-- C4 amended: the gap `[24.9, 25)` of the categorizer is reachable —
for instance weight "24.91", height "1" round to 24.91 — and
`bmi_category` maps every value in the gap to the Obese label (the final
`else`). -/
theorem claim_c4_amended :
    calculate_bmi "24.91" "1" = BmiOutcome.ok (2491 / 100) ∧
    (24.9 : ℚ) ≤ 2491 / 100 ∧ (2491 / 100 : ℚ) < 25 ∧
    (∀ q : ℚ, 24.9 ≤ q → q < 25 →
      bmi_category q = "Obese 😭 – Let\u0027s fix this ASAP!") := by
  refine ⟨?_, by norm_num, by norm_num, ?_⟩
  · rw [calculate_bmi_of_some evalPyFloat2491 evalPyFloat1, if_neg (by norm_num)]
    rw [show (2491 / 100 : ℚ) / 1 ^ 2 = 2491 / 100 from by norm_num]
    rw [pyRound2_of_lt (2491 / 100) 2491 (by norm_num) (by norm_num)]
    norm_num
  · intro q h1 h2
    have h3 : ¬ (q < 18.5) := by
      intro hc
      have : (18.5 : ℚ) ≤ 24.9 := by norm_num
      linarith
    have h4 : ¬ ((18.5 : ℚ) ≤ q ∧ q < 24.9) := fun hc => absurd h1 (not_le.mpr hc.2)
    have h5 : ¬ ((25 : ℚ) ≤ q ∧ q < 29.9) := fun hc => absurd h2 (not_lt.mpr hc.1)
    rw [bmi_category, if_neg h3, if_neg h4, if_neg h5]

/-- Witness for the amended C4 at the gap value 24.95. -/
theorem claim_c4_amended_witness :
    bmi_category (2495 / 100) = "Obese 😭 – Let\u0027s fix this ASAP!" :=
  claim_c4_amended.2.2.2 (2495 / 100) (by norm_num) (by norm_num)

/-- Matching a token against itself followed by anything consumes exactly
the token. -/
theorem matchTok_self (t r : List Char) : matchTok t (t ++ r) = some r := by
  induction t with
  | nil => rfl
  | cons a ts ih => simp [matchTok, ih]

/-- `dropWs` removes a leading all-whitespace block. -/
theorem dropWs_of_all (ws r : List Char) (h : ∀ c ∈ ws, pyIsSpace c = true) :
    dropWs (ws ++ r) = dropWs r := by
  induction ws with
  | nil => rfl
  | cons a ts ih =>
    have ha : pyIsSpace a = true := h a (List.mem_cons_self a ts)
    simp only [List.cons_append, dropWs, ha, if_pos]
    exact ih (fun c hc => h c (List.mem_cons_of_mem a hc))

/-- `dropWs` keeps a list whose head is not whitespace. -/
theorem dropWs_cons_of_not {c : Char} (r : List Char) (h : pyIsSpace c = false) :
    dropWs (c :: r) = c :: r := by
  simp [dropWs, h]

/-- `dropWs` is idempotent. -/
theorem dropWs_idem (l : List Char) : dropWs (dropWs l) = dropWs l := by
  induction l with
  | nil => rfl
  | cons a ts ih =>
    by_cases ha : pyIsSpace a
    · simp [dropWs, ha, ih]
    · simp [dropWs, ha]

/-- Every character surviving `dropWs` came from the input. -/
theorem mem_dropWs {a : Char} {l : List Char} (h : a ∈ dropWs l) : a ∈ l := by
  induction l with
  | nil => exact absurd h (by simp [dropWs])
  | cons c ts ih =>
    by_cases hc : pyIsSpace c
    · simp only [dropWs, hc, if_pos] at h
      exact List.mem_cons_of_mem c (ih h)
    · simpa [dropWs, hc] using h

/-- When the input is not all whitespace, `dropWs` distributes over an
appended tail. -/
theorem dropWs_append {xs : List Char} (r : List Char) (h : dropWs xs ≠ []) :
    dropWs (xs ++ r) = dropWs xs ++ r := by
  induction xs with
  | nil => simp [dropWs] at h
  | cons a ts ih =>
    by_cases ha : pyIsSpace a
    · simp only [dropWs, ha, if_pos, List.cons_append] at h ⊢
      exact ih h
    · simp [dropWs, ha]

/-- Stripping after dropping leading whitespace strips the original. -/
theorem pyStrip_dropWs (l : List Char) : pyStrip (dropWs l) = pyStrip l := by
  unfold pyStrip
  rw [dropWs_idem]

/-- A scan skips over a prefix free of the anchor character. -/
theorem findHeader_append {e : Char} {es hdr : List Char} (pre s : List Char)
    (h : e ∉ pre) : findHeader (e :: es) hdr (pre ++ s) = findHeader (e :: es) hdr s := by
  induction pre with
  | nil => rfl
  | cons c cs ih =>
    have hce : ¬ (c = e) := fun hc => h (hc ▸ List.mem_cons_self c cs)
    have h' : e ∉ cs := fun hc => h (List.mem_cons_of_mem c hc)
    simp only [List.cons_append, findHeader, matchTok, hce, if_neg, ite_false]
    exact ih h'

/-- A scan finds nothing when the anchor character is absent. -/
theorem findHeader_none {e : Char} {es hdr : List Char} (s : List Char)
    (h : e ∉ s) : findHeader (e :: es) hdr s = none := by
  have h2 : findHeader (e :: es) hdr (s ++ []) = findHeader (e :: es) hdr [] :=
    findHeader_append s [] h
  rw [List.append_nil] at h2
  rw [h2]
  rfl

/-- A scan succeeds right at an occurrence of token, whitespace and
header, and returns the capture-start suffix. -/
theorem findHeader_here (e : Char) (es ws hdr rest : List Char)
    (hws : ∀ c ∈ ws, pyIsSpace c = true) (hh : headNotSpace hdr = true) :
    findHeader (e :: es) hdr ((e :: es) ++ ws ++ hdr ++ rest) = some (dropWs rest) := by
  match hdr, hh with
  | h0 :: hs, hh =>
    have hh0 : pyIsSpace h0 = false := by
      simpa [headNotSpace] using hh
    have hd : dropWs (ws ++ (h0 :: hs) ++ rest) = (h0 :: hs) ++ rest := by
      rw [List.append_assoc, dropWs_of_all ws _ hws]
      exact dropWs_cons_of_not _ hh0
    have hm2 : matchTok (h0 :: hs) ((h0 :: hs) ++ rest) = some rest := matchTok_self _ _
    have hshape : (e :: es) ++ ws ++ (h0 :: hs) ++ rest =
        e :: (es ++ (ws ++ (h0 :: hs) ++ rest)) := by
      simp
    rw [hshape, findHeader]
    have hm1' : matchTok (e :: es) (e :: (es ++ (ws ++ (h0 :: hs) ++ rest))) =
        some (ws ++ (h0 :: hs) ++ rest) := by
      simpa using matchTok_self (e :: es) (ws ++ (h0 :: hs) ++ rest)
    simp only [hm1', hd, hm2]

/-- A prefix test succeeds on the prefix itself followed by anything. -/
theorem isPfx_self (t r : List Char) : isPfx t (t ++ r) = true := by
  induction t with
  | nil => rfl
  | cons a ts ih => simp [isPfx, ih]

/-- A successful prefix test pins down the head of the input. -/
theorem isPfx_cons_head {t : Char} {ts l : List Char} (h : isPfx (t :: ts) l = true) :
    ∃ l', l = t :: l' := by
  match l with
  | [] => simp [isPfx] at h
  | c :: cs =>
    simp only [isPfx, Bool.and_eq_true, decide_eq_true_eq] at h
    exact ⟨cs, by rw [h.1]⟩

/-- The lazy capture stops exactly at the stop marker when the marker's
distinguishing character occurs nowhere earlier. -/
theorem captureUntil_boundary (a e : Char) (st' xs rest : List Char)
    (hne : e ∉ xs) (hae : e ≠ a) :
    captureUntil (a :: e :: st') (xs ++ a :: e :: (st' ++ rest)) = xs := by
  induction xs with
  | nil =>
    have h1 : isPfx (a :: e :: st') (a :: e :: (st' ++ rest)) = true := by
      simpa using isPfx_self (a :: e :: st') rest
    simp [captureUntil, h1]
  | cons x ts ih =>
    have h' : e ∉ ts := fun hc => hne (List.mem_cons_of_mem x hc)
    have hcond : isPfx (a :: e :: st') (x :: (ts ++ a :: e :: (st' ++ rest))) = false := by
      by_contra hc
      rw [Bool.not_eq_false] at hc
      simp only [isPfx, Bool.and_eq_true, decide_eq_true_eq] at hc
      rcases isPfx_cons_head hc.2 with ⟨l', hl⟩
      match ts, hl with
      | [], hl =>
        simp only [List.nil_append, List.cons.injEq] at hl
        exact hae hl.1.symm
      | y :: ys, hl =>
        simp only [List.cons_append, List.cons.injEq] at hl
        exact hne (by rw [← hl.1]; exact List.mem_cons_of_mem x (List.mem_cons_self y ys))
    rw [List.cons_append, captureUntil, hcond]
    simpa using ih h'

/-- The lazy capture runs to the end of input when the marker's
distinguishing character never occurs. -/
theorem captureUntil_absent {a e : Char} {st' : List Char} (xs : List Char)
    (hne : e ∉ xs) : captureUntil (a :: e :: st') xs = xs := by
  induction xs with
  | nil => rfl
  | cons x ts ih =>
    have h' : e ∉ ts := fun hc => hne (List.mem_cons_of_mem x hc)
    have hcond : isPfx (a :: e :: st') (x :: ts) = false := by
      by_contra hc
      rw [Bool.not_eq_false] at hc
      simp only [isPfx, Bool.and_eq_true, decide_eq_true_eq] at hc
      rcases isPfx_cons_head hc.2 with ⟨l', hl⟩
      exact hne (by rw [hl]; exact List.mem_cons_of_mem x (List.mem_cons_self e l'))
    rw [captureUntil, hcond]
    simpa using ih h'

/-- `splitNl` never returns the empty list of lines. -/
theorem splitNl_ne_nil (l : List Char) : splitNl l ≠ [] := by
  induction l with
  | nil => simp [splitNl]
  | cons c cs ih =>
    by_cases hc : c = '\n'
    · simp [splitNl, hc]
    · simp only [splitNl, hc, if_neg, ite_false]
      match h : splitNl cs with
      | [] => exact absurd h ih
      | m :: ms => simp

/-- Rejoining with newline undoes the newline split. -/
theorem joinNl_splitNl (l : List Char) : joinNl (splitNl l) = l := by
  induction l with
  | nil => rfl
  | cons c cs ih =>
    by_cases hc : c = '\n'
    · subst hc
      simp only [splitNl, if_pos]
      match h : splitNl cs with
      | [] => exact absurd h (splitNl_ne_nil cs)
      | m :: ms =>
        rw [h] at ih
        simp [joinNl, ih]
    · simp only [splitNl, hc, ite_false]
      match h : splitNl cs with
      | [] => exact absurd h (splitNl_ne_nil cs)
      | [m] =>
        rw [h] at ih
        simp only [joinNl] at ih ⊢
        rw [ih]
      | m :: m' :: ms =>
        rw [h] at ih
        simp only [joinNl] at ih ⊢
        rw [List.cons_append, ih]

/-- The routine regex on a canonical completion captures exactly the
routine body (with its leading whitespace consumed by `\s*`). -/
theorem reFirst_routine (intro c1 tail : List Char)
    (hi : '💖' ∉ intro) (hc : '🍳' ∉ c1) (hne : dropWs c1 ≠ []) :
    reFirst emRoutine hdrRoutine (some stopBreakfast)
      (intro ++ segRoutine ++ c1 ++ '\n' :: segBreakfast ++ tail) = some (dropWs c1) := by
  have hsplit : intro ++ segRoutine ++ c1 ++ '\n' :: segBreakfast ++ tail
      = intro ++ (emRoutine ++ [' '] ++ hdrRoutine ++
          ('\n' :: (c1 ++ '\n' :: (segBreakfast ++ tail)))) := by
    simp [segRoutine]
  have hfind : findHeader emRoutine hdrRoutine
      (intro ++ (emRoutine ++ [' '] ++ hdrRoutine ++
        ('\n' :: (c1 ++ '\n' :: (segBreakfast ++ tail))))) =
      some (dropWs ('\n' :: (c1 ++ '\n' :: (segBreakfast ++ tail)))) :=
    (findHeader_append _ _ hi).trans
      (findHeader_here '💖' [] [' '] hdrRoutine _ (by decide) (by decide))
  have hdrop : dropWs ('\n' :: (c1 ++ '\n' :: (segBreakfast ++ tail)))
      = dropWs c1 ++ '\n' :: (segBreakfast ++ tail) := by
    rw [show dropWs ('\n' :: (c1 ++ '\n' :: (segBreakfast ++ tail)))
        = dropWs (c1 ++ '\n' :: (segBreakfast ++ tail)) from by simp [dropWs, pyIsSpace]]
    exact dropWs_append _ hne
  have hsb : '\n' :: (segBreakfast ++ tail) = '\n' :: '🍳' :: (' ' :: hdrBreakfast ++ '\n' :: tail) := by
    simp [segBreakfast, emBreakfast]
  have hcap : captureUntil stopBreakfast (dropWs c1 ++ '\n' :: (segBreakfast ++ tail))
      = dropWs c1 := by
    rw [hsb]
    exact captureUntil_boundary '\n' '🍳' [] (dropWs c1) _
      (fun hm => hc (mem_dropWs hm)) (by decide)
  rw [hsplit]
  simp only [reFirst, hfind, hdrop, hcap]

/-- The breakfast regex on a canonical completion captures exactly the
breakfast body. -/
theorem reFirst_breakfast (pre c2 tail : List Char)
    (hp : '🍳' ∉ pre) (hc : '🍽' ∉ c2) (hne : dropWs c2 ≠ []) :
    reFirst emBreakfast hdrBreakfast (some stopDinner)
      (pre ++ segBreakfast ++ c2 ++ '\n' :: segDinner ++ tail) = some (dropWs c2) := by
  have hsplit : pre ++ segBreakfast ++ c2 ++ '\n' :: segDinner ++ tail
      = pre ++ (emBreakfast ++ [' '] ++ hdrBreakfast ++
          ('\n' :: (c2 ++ '\n' :: (segDinner ++ tail)))) := by
    simp [segBreakfast]
  have hfind : findHeader emBreakfast hdrBreakfast
      (pre ++ (emBreakfast ++ [' '] ++ hdrBreakfast ++
        ('\n' :: (c2 ++ '\n' :: (segDinner ++ tail))))) =
      some (dropWs ('\n' :: (c2 ++ '\n' :: (segDinner ++ tail)))) :=
    (findHeader_append _ _ hp).trans
      (findHeader_here '🍳' [] [' '] hdrBreakfast _ (by decide) (by decide))
  have hdrop : dropWs ('\n' :: (c2 ++ '\n' :: (segDinner ++ tail)))
      = dropWs c2 ++ '\n' :: (segDinner ++ tail) := by
    rw [show dropWs ('\n' :: (c2 ++ '\n' :: (segDinner ++ tail)))
        = dropWs (c2 ++ '\n' :: (segDinner ++ tail)) from by simp [dropWs, pyIsSpace]]
    exact dropWs_append _ hne
  have hsd : '\n' :: (segDinner ++ tail) = '\n' :: '🍽' :: (' ' :: hdrDinner ++ '\n' :: tail) := by
    simp [segDinner, emDinner]
  have hcap : captureUntil stopDinner (dropWs c2 ++ '\n' :: (segDinner ++ tail))
      = dropWs c2 := by
    rw [hsd]
    exact captureUntil_boundary '\n' '🍽' [] (dropWs c2) _
      (fun hm => hc (mem_dropWs hm)) (by decide)
  rw [hsplit]
  simp only [reFirst, hfind, hdrop, hcap]

/-- The dinner regex on a canonical four-header completion captures
exactly the dinner body, stopping at the workout header. -/
theorem reFirst_dinner (pre c3 tail : List Char)
    (hp : '🍽' ∉ pre) (hc : '🏋' ∉ c3) (hne : dropWs c3 ≠ []) :
    reFirst emDinner hdrDinner (some stopWorkout)
      (pre ++ segDinner ++ c3 ++ '\n' :: segWorkout ++ tail) = some (dropWs c3) := by
  have hsplit : pre ++ segDinner ++ c3 ++ '\n' :: segWorkout ++ tail
      = pre ++ (emDinner ++ [' '] ++ hdrDinner ++
          ('\n' :: (c3 ++ '\n' :: (segWorkout ++ tail)))) := by
    simp [segDinner]
  have hfind : findHeader emDinner hdrDinner
      (pre ++ (emDinner ++ [' '] ++ hdrDinner ++
        ('\n' :: (c3 ++ '\n' :: (segWorkout ++ tail))))) =
      some (dropWs ('\n' :: (c3 ++ '\n' :: (segWorkout ++ tail)))) :=
    (findHeader_append _ _ hp).trans
      (findHeader_here '🍽' [] [' '] hdrDinner _ (by decide) (by decide))
  have hdrop : dropWs ('\n' :: (c3 ++ '\n' :: (segWorkout ++ tail)))
      = dropWs c3 ++ '\n' :: (segWorkout ++ tail) := by
    rw [show dropWs ('\n' :: (c3 ++ '\n' :: (segWorkout ++ tail)))
        = dropWs (c3 ++ '\n' :: (segWorkout ++ tail)) from by simp [dropWs, pyIsSpace]]
    exact dropWs_append _ hne
  have hsw : '\n' :: (segWorkout ++ tail)
      = '\n' :: '🏋' :: (['\uFE0F', '\u200D', '\u2640', '\uFE0F'] ++
          (' ' :: hdrWorkout ++ '\n' :: tail)) := by
    simp [segWorkout, emWorkout]
  have hcap : captureUntil stopWorkout (dropWs c3 ++ '\n' :: (segWorkout ++ tail))
      = dropWs c3 := by
    rw [hsw]
    exact captureUntil_boundary '\n' '🏋' ['\uFE0F', '\u200D', '\u2640', '\uFE0F'] (dropWs c3) _
      (fun hm => hc (mem_dropWs hm)) (by decide)
  rw [hsplit]
  simp only [reFirst, hfind, hdrop, hcap]

/-- The dinner regex when the completion ends after the dinner body (no
workout header): the lookahead never fires and the capture runs to the
end of the text. -/
theorem reFirst_dinner_end (pre c3 : List Char)
    (hp : '🍽' ∉ pre) (hc : '🏋' ∉ c3) :
    reFirst emDinner hdrDinner (some stopWorkout) (pre ++ segDinner ++ c3)
      = some (dropWs c3) := by
  have hsplit : pre ++ segDinner ++ c3
      = pre ++ (emDinner ++ [' '] ++ hdrDinner ++ ('\n' :: c3)) := by
    simp [segDinner]
  have hfind : findHeader emDinner hdrDinner
      (pre ++ (emDinner ++ [' '] ++ hdrDinner ++ ('\n' :: c3)))
      = some (dropWs ('\n' :: c3)) :=
    (findHeader_append _ _ hp).trans
      (findHeader_here '🍽' [] [' '] hdrDinner _ (by decide) (by decide))
  have hdrop : dropWs ('\n' :: c3) = dropWs c3 := by simp [dropWs, pyIsSpace]
  have hcap : captureUntil stopWorkout (dropWs c3) = dropWs c3 :=
    captureUntil_absent _ (fun hm => hc (mem_dropWs hm))
  rw [hsplit]
  simp only [reFirst, hfind, hdrop, hcap]

/-- The workout regex on a canonical completion captures everything after
the workout header. -/
theorem reFirst_workout (pre c4 : List Char) (hp : '🏋' ∉ pre) :
    reFirst emWorkout hdrWorkout none (pre ++ segWorkout ++ c4)
      = some (dropWs c4) := by
  have hsplit : pre ++ segWorkout ++ c4
      = pre ++ (emWorkout ++ [' '] ++ hdrWorkout ++ ('\n' :: c4)) := by
    simp [segWorkout]
  have hfind : findHeader emWorkout hdrWorkout
      (pre ++ (emWorkout ++ [' '] ++ hdrWorkout ++ ('\n' :: c4)))
      = some (dropWs ('\n' :: c4)) :=
    (findHeader_append _ _ hp).trans
      (findHeader_here '🏋' ['\uFE0F', '\u200D', '\u2640', '\uFE0F'] [' '] hdrWorkout _
        (by decide) (by decide))
  have hdrop : dropWs ('\n' :: c4) = dropWs c4 := by simp [dropWs, pyIsSpace]
  rw [hsplit]
  simp only [reFirst, hfind, hdrop]

/-- Non-membership distributes over cons. -/
theorem notMemCons {a b : Char} {l : List Char} (h1 : a ≠ b) (h2 : a ∉ l) :
    a ∉ b :: l := by
  intro hm
  rcases List.mem_cons.mp hm with h | h
  · exact h1 h
  · exact h2 h

/-- Non-membership distributes over append. -/
theorem notMemAppend {a : Char} {s t : List Char} (h1 : a ∉ s) (h2 : a ∉ t) :
    a ∉ s ++ t := by
  intro hm
  rcases List.mem_append.mp hm with h | h
  · exact h1 h
  · exact h2 h

/-- C7 amended: on a completion with all four headers in order whose
leading text and first three section bodies contain none of the four
emoji anchors, and whose first three bodies each contain a
non-whitespace character, the extractor captures each body exactly, and
rejoining each returned line sequence with newline gives that body
trimmed of surrounding whitespace. -/
theorem claim_c7_amended :
    ∀ (p c1 c2 c3 c4 : List Char),
      cleanBlock p → cleanBlock c1 → cleanBlock c2 → cleanBlock c3 →
      dropWs c1 ≠ [] → dropWs c2 ≠ [] → dropWs c3 ≠ [] →
      extractSections (mkCompletion4 p c1 c2 c3 c4) =
        ⟨splitNl (pyStrip c1), splitNl (pyStrip c2),
          splitNl (pyStrip c3), splitNl (pyStrip c4)⟩ ∧
      joinNl (splitNl (pyStrip c1)) = pyStrip c1 ∧
      joinNl (splitNl (pyStrip c2)) = pyStrip c2 ∧
      joinNl (splitNl (pyStrip c3)) = pyStrip c3 ∧
      joinNl (splitNl (pyStrip c4)) = pyStrip c4 := by
  intro p c1 c2 c3 c4 hp h1 h2 h3 hn1 hn2 hn3
  have hR : reFirst emRoutine hdrRoutine (some stopBreakfast)
      (mkCompletion4 p c1 c2 c3 c4) = some (dropWs c1) := by
    rw [show mkCompletion4 p c1 c2 c3 c4
        = p ++ segRoutine ++ c1 ++ '\n' :: segBreakfast ++
          (c2 ++ '\n' :: segDinner ++ c3 ++ '\n' :: segWorkout ++ c4) from by
      simp [mkCompletion4]]
    exact reFirst_routine _ _ _ hp.1 h1.2.1 hn1
  have hB : reFirst emBreakfast hdrBreakfast (some stopDinner)
      (mkCompletion4 p c1 c2 c3 c4) = some (dropWs c2) := by
    rw [show mkCompletion4 p c1 c2 c3 c4
        = (p ++ segRoutine ++ c1 ++ ['\n']) ++ segBreakfast ++ c2 ++
          '\n' :: segDinner ++ (c3 ++ '\n' :: segWorkout ++ c4) from by
      simp [mkCompletion4]]
    exact reFirst_breakfast _ _ _
      (notMemAppend (notMemAppend (notMemAppend hp.2.1 (by decide)) h1.2.1) (by decide))
      h2.2.2.1 hn2
  have hD : reFirst emDinner hdrDinner (some stopWorkout)
      (mkCompletion4 p c1 c2 c3 c4) = some (dropWs c3) := by
    rw [show mkCompletion4 p c1 c2 c3 c4
        = (p ++ segRoutine ++ c1 ++ '\n' :: segBreakfast ++ c2 ++ ['\n']) ++
          segDinner ++ c3 ++ '\n' :: segWorkout ++ c4 from by
      simp [mkCompletion4]]
    exact reFirst_dinner _ _ _
      (notMemAppend (notMemAppend (notMemAppend (notMemAppend
        (notMemAppend hp.2.2.1 (by decide)) h1.2.2.1)
        (notMemCons (by decide) (by decide))) h2.2.2.1) (by decide))
      h3.2.2.2 hn3
  have hW : reFirst emWorkout hdrWorkout none
      (mkCompletion4 p c1 c2 c3 c4) = some (dropWs c4) := by
    rw [show mkCompletion4 p c1 c2 c3 c4
        = (p ++ segRoutine ++ c1 ++ '\n' :: segBreakfast ++ c2 ++
            '\n' :: segDinner ++ c3 ++ ['\n']) ++ segWorkout ++ c4 from by
      simp [mkCompletion4]]
    exact reFirst_workout _ _
      (notMemAppend (notMemAppend (notMemAppend (notMemAppend (notMemAppend
        (notMemAppend (notMemAppend hp.2.2.2 (by decide)) h1.2.2.2)
        (notMemCons (by decide) (by decide))) h2.2.2.2)
        (notMemCons (by decide) (by decide))) h3.2.2.2) (by decide))
  refine ⟨?_, joinNl_splitNl _, joinNl_splitNl _, joinNl_splitNl _, joinNl_splitNl _⟩
  simp only [extractSections, hR, hB, hD, hW, sectionLines, pyStrip_dropWs]

/-- C8 amended: on a completion with the routine, breakfast and dinner
headers in order but no workout header, with the same cleanliness
conditions, the workout section falls back to its fixed placeholder
while the other three bodies are captured exactly. -/
theorem claim_c8_amended :
    ∀ (p c1 c2 c3 : List Char),
      cleanBlock p → cleanBlock c1 → cleanBlock c2 → cleanBlock c3 →
      dropWs c1 ≠ [] → dropWs c2 ≠ [] →
      extractSections (mkCompletion3 p c1 c2 c3) =
        ⟨splitNl (pyStrip c1), splitNl (pyStrip c2),
          splitNl (pyStrip c3), [phWorkout]⟩ ∧
      joinNl (splitNl (pyStrip c1)) = pyStrip c1 ∧
      joinNl (splitNl (pyStrip c2)) = pyStrip c2 ∧
      joinNl (splitNl (pyStrip c3)) = pyStrip c3 := by
  intro p c1 c2 c3 hp h1 h2 h3 hn1 hn2
  have hR : reFirst emRoutine hdrRoutine (some stopBreakfast)
      (mkCompletion3 p c1 c2 c3) = some (dropWs c1) := by
    rw [show mkCompletion3 p c1 c2 c3
        = p ++ segRoutine ++ c1 ++ '\n' :: segBreakfast ++
          (c2 ++ '\n' :: segDinner ++ c3) from by simp [mkCompletion3]]
    exact reFirst_routine _ _ _ hp.1 h1.2.1 hn1
  have hB : reFirst emBreakfast hdrBreakfast (some stopDinner)
      (mkCompletion3 p c1 c2 c3) = some (dropWs c2) := by
    rw [show mkCompletion3 p c1 c2 c3
        = (p ++ segRoutine ++ c1 ++ ['\n']) ++ segBreakfast ++ c2 ++
          '\n' :: segDinner ++ c3 from by simp [mkCompletion3]]
    exact reFirst_breakfast _ _ _
      (notMemAppend (notMemAppend (notMemAppend hp.2.1 (by decide)) h1.2.1) (by decide))
      h2.2.2.1 hn2
  have hD : reFirst emDinner hdrDinner (some stopWorkout)
      (mkCompletion3 p c1 c2 c3) = some (dropWs c3) := by
    rw [show mkCompletion3 p c1 c2 c3
        = (p ++ segRoutine ++ c1 ++ '\n' :: segBreakfast ++ c2 ++ ['\n']) ++
          segDinner ++ c3 from by simp [mkCompletion3]]
    exact reFirst_dinner_end _ _
      (notMemAppend (notMemAppend (notMemAppend (notMemAppend
        (notMemAppend hp.2.2.1 (by decide)) h1.2.2.1)
        (notMemCons (by decide) (by decide))) h2.2.2.1) (by decide))
      h3.2.2.2
  have hnm : '🏋' ∉ mkCompletion3 p c1 c2 c3 := by
    show '🏋' ∉ p ++ segRoutine ++ c1 ++ '\n' :: segBreakfast ++ c2 ++
      '\n' :: segDinner ++ c3
    exact notMemAppend (notMemAppend (notMemAppend (notMemAppend (notMemAppend
      (notMemAppend hp.2.2.2 (by decide)) h1.2.2.2)
      (notMemCons (by decide) (by decide))) h2.2.2.2)
      (notMemCons (by decide) (by decide))) h3.2.2.2
  have hfn : findHeader emWorkout hdrWorkout (mkCompletion3 p c1 c2 c3) = none :=
    findHeader_none _ hnm
  have hW : reFirst emWorkout hdrWorkout none (mkCompletion3 p c1 c2 c3) = none := by
    simp only [reFirst, hfn]
  refine ⟨?_, joinNl_splitNl _, joinNl_splitNl _, joinNl_splitNl _⟩
  simp only [extractSections, hR, hB, hD, hW, sectionLines, pyStrip_dropWs]

/-- One post-processed section is never the empty list of lines. -/
theorem sectionLines_ne_nil (cap : Option (List Char)) (ph : List Char) :
    sectionLines cap ph ≠ [] := by
  cases cap with
  | none => simp [sectionLines]
  | some c => simpa [sectionLines] using splitNl_ne_nil (pyStrip c)

/-- C6: extraction is total — on every completion it produces the four
line sequences, each non-empty, and any section whose header pattern is
not found degrades to its single-element fixed placeholder. -/
theorem claim_c6_extractor_total :
    ∀ s : List Char,
      (findHeader emRoutine hdrRoutine s = none →
        (extractSections s).daily = [phRoutine]) ∧
      (findHeader emBreakfast hdrBreakfast s = none →
        (extractSections s).breakfast = [phBreakfast]) ∧
      (findHeader emDinner hdrDinner s = none →
        (extractSections s).dinner = [phDinner]) ∧
      (findHeader emWorkout hdrWorkout s = none →
        (extractSections s).workout = [phWorkout]) ∧
      (extractSections s).daily ≠ [] ∧ (extractSections s).breakfast ≠ [] ∧
      (extractSections s).dinner ≠ [] ∧ (extractSections s).workout ≠ [] := by
  intro s
  refine ⟨?_, ?_, ?_, ?_,
    sectionLines_ne_nil _ _, sectionLines_ne_nil _ _,
    sectionLines_ne_nil _ _, sectionLines_ne_nil _ _⟩
  · intro h
    have hr : reFirst emRoutine hdrRoutine (some stopBreakfast) s = none := by
      simp only [reFirst, h]
    simp only [extractSections, hr, sectionLines]
  · intro h
    have hr : reFirst emBreakfast hdrBreakfast (some stopDinner) s = none := by
      simp only [reFirst, h]
    simp only [extractSections, hr, sectionLines]
  · intro h
    have hr : reFirst emDinner hdrDinner (some stopWorkout) s = none := by
      simp only [reFirst, h]
    simp only [extractSections, hr, sectionLines]
  · intro h
    have hr : reFirst emWorkout hdrWorkout none s = none := by
      simp only [reFirst, h]
    simp only [extractSections, hr, sectionLines]

/-- Witness for C6 on the empty completion: every header is absent and
all four sections are their placeholders. -/
theorem claim_c6_extractor_total_witness :
    (extractSections []).daily = [phRoutine] ∧
    (extractSections []).breakfast = [phBreakfast] ∧
    (extractSections []).dinner = [phDinner] ∧
    (extractSections []).workout = [phWorkout] :=
  ⟨(claim_c6_extractor_total []).1 rfl,
    (claim_c6_extractor_total []).2.1 rfl,
    (claim_c6_extractor_total []).2.2.1 rfl,
    (claim_c6_extractor_total []).2.2.2.1 rfl⟩

/-- C7 counterexample: this completion contains all four headers in the
fixed order, and the text between the routine header and the breakfast
header is empty; the claim then demands a routine sequence that rejoins
to the empty (trimmed) inter-header text, but the regex `\s*` consumes
the separating newline, the lookahead `\n🍳` no longer matches anywhere,
and the routine capture swallows the entire rest of the completion. -/
theorem claim_c7_counterexample :
    joinNl ((extractSections ("💖 **Daily Routine:**\n🍳 **Breakfast:**\nB\n🍽 **Dinner:**\nD\n🏋️‍♀️ **Workout Plan:**\nW").toList).daily) ≠ ([] : List Char) := by
  decide

/-- Witness for the amended C7 at a four-section completion with
one-line bodies. -/
theorem claim_c7_amended_witness :
    extractSections (mkCompletion4 [] ("- a").toList ("- b").toList
        ("- c").toList ("- d").toList) =
      ⟨splitNl (pyStrip ("- a").toList), splitNl (pyStrip ("- b").toList),
        splitNl (pyStrip ("- c").toList), splitNl (pyStrip ("- d").toList)⟩ ∧
    joinNl (splitNl (pyStrip ("- a").toList)) = pyStrip ("- a").toList ∧
    joinNl (splitNl (pyStrip ("- b").toList)) = pyStrip ("- b").toList ∧
    joinNl (splitNl (pyStrip ("- c").toList)) = pyStrip ("- c").toList ∧
    joinNl (splitNl (pyStrip ("- d").toList)) = pyStrip ("- d").toList :=
  claim_c7_amended [] ("- a").toList ("- b").toList ("- c").toList ("- d").toList
    ⟨by decide, by decide, by decide, by decide⟩
    ⟨by decide, by decide, by decide, by decide⟩
    ⟨by decide, by decide, by decide, by decide⟩
    ⟨by decide, by decide, by decide, by decide⟩
    (by decide) (by decide) (by decide)

/-- C8 counterexample: this completion has the routine, breakfast and
dinner headers in order and no workout header; the workout placeholder
is produced as claimed, but the routine section is NOT extracted
correctly — its inter-header text is empty and the capture swallows the
rest of the completion instead of rejoining to the empty trimmed text. -/
theorem claim_c8_counterexample :
    (extractSections ("💖 **Daily Routine:**\n🍳 **Breakfast:**\nB\n🍽 **Dinner:**\nD").toList).workout = [phWorkout] ∧
    joinNl ((extractSections ("💖 **Daily Routine:**\n🍳 **Breakfast:**\nB\n🍽 **Dinner:**\nD").toList).daily) ≠ ([] : List Char) := by
  constructor
  · decide
  · decide

/-- Witness for the amended C8 at a three-section completion with
one-line bodies. -/
theorem claim_c8_amended_witness :
    extractSections (mkCompletion3 [] ("- a").toList ("- b").toList
        ("- c").toList) =
      ⟨splitNl (pyStrip ("- a").toList), splitNl (pyStrip ("- b").toList),
        splitNl (pyStrip ("- c").toList), [phWorkout]⟩ ∧
    joinNl (splitNl (pyStrip ("- a").toList)) = pyStrip ("- a").toList ∧
    joinNl (splitNl (pyStrip ("- b").toList)) = pyStrip ("- b").toList ∧
    joinNl (splitNl (pyStrip ("- c").toList)) = pyStrip ("- c").toList :=
  claim_c8_amended [] ("- a").toList ("- b").toList ("- c").toList
    ⟨by decide, by decide, by decide, by decide⟩
    ⟨by decide, by decide, by decide, by decide⟩
    ⟨by decide, by decide, by decide, by decide⟩
    ⟨by decide, by decide, by decide, by decide⟩
    (by decide) (by decide)

/-- Evaluation of `calculate_bmi("70", "1.75")`. -/
theorem evalBmi70175 : calculate_bmi "70" "1.75" = BmiOutcome.ok (2286 / 100) := by
  rw [calculate_bmi_of_some evalPyFloat70 evalPyFloat175, if_neg (by norm_num)]
  rw [show (70 : ℚ) / (7 / 4) ^ 2 = 1120 / 49 from by norm_num]
  rw [pyRound2_of_gt (1120 / 49) 2285 (by norm_num) (by norm_num)]
  norm_num

/-- C5: whenever one of the eight form fields is missing or blank after
stripping, the handler answers the missing-fields error page with status
400, for every possible provider behaviour, and the provider is not
invoked. -/
theorem claim_c5_missing_field :
    ∀ (f : RecommendForm) (llm : Except String String),
      (pyStripStr (f.age.getD "") = "" ∨ pyStripStr (f.gender.getD "") = "" ∨
        pyStripStr (f.weight.getD "") = "" ∨ pyStripStr (f.height.getD "") = "" ∨
        pyStripStr (f.disease.getD "") = "" ∨ pyStripStr (f.veg.getD "") = "" ∨
        pyStripStr (f.allergics.getD "") = "" ∨ pyStripStr (f.foodtype.getD "") = "") →
      recommend f llm =
        ⟨Page.errorPage "⚠️ Missing required fields!", 400, false⟩ := by
  intro f llm h
  unfold recommend
  rw [if_pos h]

/-- Witness for C5: the age field absent (blank after defaulting), the
other seven present. -/
theorem claim_c5_missing_field_witness :
    recommend ⟨none, some "F", some "70", some "1.75", some "none",
        some "veg", some "none", some "indian"⟩ (Except.ok "hi") =
      ⟨Page.errorPage "⚠️ Missing required fields!", 400, false⟩ :=
  claim_c5_missing_field _ _ (Or.inl (by decide))

/-- Evaluation of the handler on `cform` when the provider raises an
exception with text `e`. -/
theorem recommend_cform_error (e : String) :
    recommend cform (Except.error e) =
      ⟨Page.errorPage ("⚠️ Something went wrong: " ++ e), 500, true⟩ := by
  unfold recommend
  rw [if_neg (by decide)]
  rw [show pyStripStr (cform.weight.getD "") = "70" from by decide]
  rw [show pyStripStr (cform.height.getD "") = "1.75" from by decide]
  rw [evalBmi70175]

/-- C9 counterexample: on a provider failure the handler does return 500
with no partial results, but the error message is not the fixed generic
text — it embeds `str(e)`, so two different provider exceptions produce
two different response pages. -/
theorem claim_c9_counterexample :
    (recommend cform (Except.error "boom")).status = 500 ∧
    (recommend cform (Except.error "boom")).page =
      Page.errorPage "⚠️ Something went wrong: boom" ∧
    (recommend cform (Except.error "boom")).page ≠
      (recommend cform (Except.error "crash")).page := by
  rw [recommend_cform_error "boom", recommend_cform_error "crash"]
  refine ⟨rfl, rfl, by decide⟩

/-- C9 amended: on any request whose eight fields are present and whose
BMI computation succeeds, a provider exception with text `e` makes the
handler return status 500 and only the error page with message
`"⚠️ Something went wrong: " ++ e` — no partial results, but the message
embeds the exception text rather than being a fixed generic string. -/
theorem claim_c9_amended :
    ∀ (f : RecommendForm) (e : String) (bmi : ℚ),
      ¬ (pyStripStr (f.age.getD "") = "" ∨ pyStripStr (f.gender.getD "") = "" ∨
        pyStripStr (f.weight.getD "") = "" ∨ pyStripStr (f.height.getD "") = "" ∨
        pyStripStr (f.disease.getD "") = "" ∨ pyStripStr (f.veg.getD "") = "" ∨
        pyStripStr (f.allergics.getD "") = "" ∨ pyStripStr (f.foodtype.getD "") = "") →
      calculate_bmi (pyStripStr (f.weight.getD ""))
        (pyStripStr (f.height.getD "")) = BmiOutcome.ok bmi →
      recommend f (Except.error e) =
        ⟨Page.errorPage ("⚠️ Something went wrong: " ++ e), 500, true⟩ := by
  intro f e bmi hv hb
  unfold recommend
  rw [if_neg hv, hb]

/-- Witness for the amended C9 at the example form and exception text
"boom". -/
theorem claim_c9_amended_witness :
    recommend cform (Except.error "boom") =
      ⟨Page.errorPage ("⚠️ Something went wrong: " ++ "boom"), 500, true⟩ :=
  claim_c9_amended cform "boom" (2286 / 100) (by decide)
    (by
      rw [show pyStripStr (cform.weight.getD "") = "70" from by decide]
      rw [show pyStripStr (cform.height.getD "") = "1.75" from by decide]
      exact evalBmi70175)

/-- C10: the download handler validates nothing — for every set of query
parameters the status is 200 on success and 500 on a PDF failure, never
400, and absent parameters default to the empty string (scalars) or stay
the empty list (list parameters), with which PDF generation is
attempted. -/
theorem claim_c10_download_no_validation :
    ∀ (a : DownloadArgs) (fail : Bool),
      (download_pdf a fail).2 = (if fail then 500 else 200) ∧
      (download_pdf a fail).2 ≠ 400 ∧
      (a.bmi = none → a.bmi_status = none → fail = false →
        download_pdf a fail = (DownloadPage.pdfFile "" ""
          a.daily_routine a.breakfast_items a.dinner_items a.workout_plans, 200)) := by
  intro a fail
  refine ⟨?_, ?_, ?_⟩
  · cases fail <;> simp [download_pdf]
  · cases fail <;> simp [download_pdf]
  · intro h1 h2 h3
    subst h3
    simp [download_pdf, h1, h2]

/-- Witness for C10: a request with every parameter absent and a
succeeding PDF renderer. -/
theorem claim_c10_download_no_validation_witness :
    (download_pdf ⟨none, none, [], [], [], []⟩ false).2 = (if false then 500 else 200) ∧
    (download_pdf ⟨none, none, [], [], [], []⟩ false).2 ≠ 400 ∧
    download_pdf ⟨none, none, [], [], [], []⟩ false =
      (DownloadPage.pdfFile "" "" [] [] [] [], 200) := by
  have h := claim_c10_download_no_validation ⟨none, none, [], [], [], []⟩ false
  exact ⟨h.1, h.2.1, h.2.2 rfl rfl rfl⟩
